import Mathlib

/-!
Verification development for `navis/core/core_utils.py`.

The file shallowly embeds the three components of the module:

* `make_dotprops` (dotprops construction via k nearest neighbours and SVD),
* `to_neuron_space` (unit conversion),
* `NeuronProcessor.__call__` (batch application with argument broadcasting
  and logger save/restore), embedded as `NeuronProcessor.call`.

Machine floating point values are modelled by `RF` (a rational number, NaN,
or a signed infinity); exact rational arithmetic stands in for IEEE
arithmetic on the finite fragment, and the one place where the Python code
can perform an invalid division (the `alpha` computation) is modelled by
`npDiv`, which returns the IEEE result of dividing by zero explicitly.
The `k == 1` output squeeze of `cKDTree.query`, which makes line 154 of
the source raise a reshape ValueError whenever the effective `k` is 1, is
modelled by the error cases of `knnCoreE`.

External collaborators that are not part of the source file
(`np.linalg.svd`, `scipy.spatial.cKDTree` behaviour on non finite data,
`graph.neuron2tangents`, `TreeNeuron.resample`, `trimesh.points.remove_close`)
are passed in as components of an `ExtDeps` record, with `np.linalg.svd`
constrained by the mathematical SVD specification `IsSVD`.
-/

/-- Model of a floating point scalar: a finite rational, NaN, or a signed
infinity. -/
inductive RF where
  | fin (q : ℚ)
  | nan
  | inf
  | ninf
  deriving DecidableEq, Inhabited

/-- Model of `np.isnan` on a scalar. -/
def RF.isnan : RF → Bool
  | .nan => true
  | _ => false

/-- Model of `np.isfinite` on a scalar. -/
def RF.isfinite : RF → Bool
  | .fin _ => true
  | _ => false

/-- A row of three floating point coordinates. -/
abbrev RV3 := Fin 3 → RF

/-- A row of three exact rational coordinates (the finite fragment). -/
abbrev V3 := Fin 3 → ℚ

/-- A 3 by 3 rational matrix. -/
abbrev Mat3 := Matrix (Fin 3) (Fin 3) ℚ

/-- A row contains a NaN in some column (`np.any(np.isnan(x), axis=1)`). -/
def rowHasNaN (r : RV3) : Bool :=
  (r 0).isnan || (r 1).isnan || (r 2).isnan

/-- A row is free of NaN entries. -/
def rowNoNaN (r : RV3) : Bool := !rowHasNaN r

/-- A row consists of finite entries only. -/
def rowFinite (r : RV3) : Bool :=
  (r 0).isfinite && (r 1).isfinite && (r 2).isfinite

/-- Line 133 of the source: `x = x[~np.any(np.isnan(x), axis=1)]`.
Only rows containing a NaN are removed; infinities are not inspected. -/
def cleanRows (x : List RV3) : List RV3 :=
  x.filter rowNoNaN

/-- Line 136: `n_points = x.shape[0]`, the point count after cleaning. -/
def n_points (x : List RV3) : ℕ :=
  (cleanRows x).length

/-- Line 139: `k = min(n_points, k)`, the effective neighbour count. -/
def kEff (x : List RV3) (kv : ℤ) : ℕ :=
  min (n_points x) kv.toNat

/-- Project a finite row to its rational coordinates (used only on rows
that passed `rowFinite`). -/
def projRV (r : RV3) : V3 :=
  fun a => match r a with
  | .fin q => q
  | _ => 0

/-- Lift a rational row back to the floating point model. -/
def liftV3 (v : V3) : RV3 :=
  fun a => .fin (v a)

/-- Squared Euclidean distance between two points. -/
def sqdist (p q : V3) : ℚ :=
  (p 0 - q 0) ^ 2 + (p 1 - q 1) ^ 2 + (p 2 - q 2) ^ 2

/-- Comparison of (squared distance, index) pairs: by distance first, then
by index.  This is the deterministic model of the `cKDTree.query`
neighbour ordering used here; at the inputs appearing in the theorems
below, tie order does not affect any stated result. -/
def distLe (a b : ℚ × ℕ) : Bool :=
  if a.1 < b.1 then true
  else if b.1 < a.1 then false
  else Nat.ble a.2 b.2

/-- Insert into a list sorted by `distLe`. -/
def insertPair (a : ℚ × ℕ) : List (ℚ × ℕ) → List (ℚ × ℕ)
  | [] => [a]
  | b :: t => if distLe a b then a :: b :: t else b :: insertPair a t

/-- Insertion sort by `distLe`. -/
def sortPairs (l : List (ℚ × ℕ)) : List (ℚ × ℕ) :=
  l.foldr insertPair []

/-- Line 145: `dist, ix = tree.query(x, k=k)` — for every point, the
indices of its `k` nearest neighbours (the point itself included).  For
`k == 1` scipy squeezes the last output dimension: the real `ix` is then
the `(N,)` array holding exactly the single index listed here per point;
that shape difference and its consequence (the line 154 reshape
ValueError) are modelled in `knnCoreE`, which never runs this un-squeezed
pipeline for `k ≤ 1`. -/
def knnQuery (pts : List V3) (k : ℕ) : List (List ℕ) :=
  pts.map (fun p =>
    ((sortPairs ((pts.enum).map (fun ji => (sqdist p ji.2, ji.1)))).take k).map
      (fun e => e.2))

/-- Line 148: `pt = x[ix]` — the coordinates of the neighbours. -/
def knnPts (pts : List V3) (k : ℕ) : List (List V3) :=
  (knnQuery pts k).map (fun idxs => idxs.map (fun j => pts.getD j (fun _ => 0)))

/-- Line 151: `centers = np.mean(pt, axis=1)`. -/
def centerOf (ns : List V3) : V3 :=
  fun a => (ns.map (fun p => p a)).sum / (ns.length : ℚ)

/-- Lines 154-157: centred offsets and `inertia = cpt.transpose @ cpt`. -/
def inertiaOf (ns : List V3) : Mat3 :=
  Matrix.of fun a b =>
    (ns.map (fun p => (p a - centerOf ns a) * (p b - centerOf ns b))).sum

/-- The per point inertia matrices of the k nearest neighbour clouds. -/
def knnInertias (pts : List V3) (k : ℕ) : List Mat3 :=
  (knnPts pts k).map inertiaOf

/-- Result of a numpy float division: a finite value, NaN (from 0/0), or a
signed infinity (from x/0 with x nonzero). -/
inductive NpDivResult where
  | val (q : ℚ)
  | nan
  | posinf
  | neginf
  deriving DecidableEq

/-- IEEE division as performed by numpy on line 162. -/
def npDiv (a b : ℚ) : NpDivResult :=
  if b = 0 then
    if a = 0 then .nan
    else if 0 < a then .posinf
    else .neginf
  else .val (a / b)

/-- The division result is a finite value inside `[0, 1]`. -/
def NpDivResult.inUnit : NpDivResult → Bool
  | .val q => decide (0 ≤ q ∧ q ≤ 1)
  | _ => false

/-- Mathematical specification of `np.linalg.svd` for a 3 by 3 matrix:
`u` and `vh` are orthogonal, the singular values are sorted in descending
order and nonnegative, and `M = u @ diag(s) @ vh`. -/
def IsSVD (M u : Mat3) (s : V3) (vh : Mat3) : Prop :=
  u * u.transpose = 1 ∧ vh * vh.transpose = 1 ∧
  s 1 ≤ s 0 ∧ s 2 ≤ s 1 ∧ 0 ≤ s 2 ∧
  M = u * Matrix.diagonal s * vh

/-- The un-squeezed computation of lines 144-162 on finite coordinates,
which the program performs exactly when `k ≥ 2` (see `knnCoreE` for the
`k ≤ 1` error cases): query the k nearest neighbours of every point,
build the inertia matrices, decompose each with the (parameterised) SVD,
take the first right singular vector as tangent (`vect = vh[:, 0, :]`)
and `alpha = (s[:, 0] - s[:, 1]) / np.sum(s, axis=1)` as confidence,
with the division performed by IEEE rules. -/
def knnCore (svd : Mat3 → Mat3 × V3 × Mat3) (pts : List V3) (k : ℕ) :
    List V3 × List NpDivResult :=
  let res := (knnInertias pts k).map (fun M =>
    let t := svd M
    let s := t.2.1
    let vh := t.2.2
    ((fun a => vh 0 a), npDiv (s 0 - s 1) (s 0 + s 1 + s 2)))
  (res.map Prod.fst, res.map Prod.snd)

/-- Provenance metadata carried over from a neuron (`units`, `name`, `id`,
lines 108 and 117). -/
structure DPMeta where
  units : ℚ
  name : String
  id : ℕ
  deriving DecidableEq, Inhabited

/-- A tree structured neuron: node coordinates, child to parent edges and
metadata. -/
structure TreeData where
  nodes : List RV3
  edges : List (ℕ × ℕ)
  meta : DPMeta
  deriving Inhabited

/-- A mesh neuron: surface vertices and metadata. -/
structure MeshData where
  vertices : List RV3
  meta : DPMeta
  deriving Inhabited

/-- The closed set of single inputs dispatched on by `make_dotprops`
(lines 101-123).  A DataFrame is modelled by its column names and the
values of its x, y, z columns; a raw array by its rows (ragged rows model
arrays whose second dimension is not 3). -/
inductive DPInput where
  | dataframe (cols : List String) (xyz : List RV3)
  | tree (t : TreeData)
  | mesh (m : MeshData)
  | arr (rows : List (List RF))

/-- The Dotprops record produced by `make_dotprops` (lines 112 and 164). -/
structure Dotprops where
  points : List RV3
  vect : List RV3
  alpha : Option (List NpDivResult)
  length : Option (List ℚ)
  k : Option ℕ
  meta : Option DPMeta
  deriving Inhabited

/-- Errors raised by `make_dotprops`: missing columns (line 103), bad
shape (line 126), invalid `k` for a non tree input (line 129), the scipy
ValueError for a `query` with `k < 1` (reached when the cleaned matrix is
empty), the line 154 reshape ValueError triggered by the `k == 1` query
squeeze, and an error raised inside the scipy/numpy calls when non finite
coordinates survive cleaning. -/
inductive DPErr where
  | badColumns
  | badShape
  | badK
  | kQueryRaise
  | reshapeRaise
  | libRaise
  deriving DecidableEq

/-- The faithful embedding of lines 144-162 on finite coordinates.
`scipy.spatial.cKDTree.query` requires `k ≥ 1` (a `k = 0` query, reached
only when the cleaned matrix is empty, raises a ValueError), and when
`k == 1` it squeezes the last output dimension: `ix` then has shape
`(N,)`, `pt = x[ix]` has shape `(N, 3)`, `centers = np.mean(pt, axis=1)`
has shape `(N,)`, and line 154 raises
`ValueError: cannot reshape array of size N into shape (N,1,3)` — the
program crashes before computing `vect` or `alpha`.  Only for `k ≥ 2`
does the un-squeezed computation `knnCore` run to completion. -/
def knnCoreE (svd : Mat3 → Mat3 × V3 × Mat3) (pts : List V3) (k : ℕ) :
    Except DPErr (List V3 × List NpDivResult) :=
  if k = 0 then .error .kQueryRaise
  else if k = 1 then .error .reshapeRaise
  else .ok (knnCore svd pts k)

/-- External collaborators of `make_dotprops` that live outside the source
file.  `svd` is `np.linalg.svd` (constrained by `IsSVD` in the theorems),
`nfKern` the behaviour of lines 144-162 when the cleaned matrix still
contains non finite values, `n2t` is `graph.neuron2tangents`,
`resampleTree` is `TreeNeuron.resample` and `removeClose` is
`trimesh.points.remove_close`. -/
structure ExtDeps where
  svd : Mat3 → Mat3 × V3 × Mat3
  nfKern : List RV3 → ℕ → Except DPErr (List RV3 × List NpDivResult)
  n2t : TreeData → List RV3 × List RV3 × List ℚ
  resampleTree : TreeData → ℚ → TreeData
  removeClose : List RV3 → ℚ → List RV3

/-- Line 110 and line 128: `isinstance(k, type(None)) or k <= 0`. -/
def kInvalid : Option ℤ → Bool
  | none => true
  | some v => decide (v ≤ 0)

/-- Lines 128-164: the common k nearest neighbour path, after the input
has been converted to an `(N, 3)` coordinate matrix.  Raises for invalid
`k`, drops NaN rows, clamps `k`, records it as metadata, and runs the
numeric kernel: `knnCoreE` on the finite fragment (which raises for
`k_eff ≤ 1`, see its doc comment), the external `nfKern` otherwise. -/
def knnPath (E : ExtDeps) (xyz : List RV3) (meta : Option DPMeta)
    (k : Option ℤ) : Except DPErr Dotprops :=
  match k with
  | none => .error .badK
  | some kv =>
    if kv ≤ 0 then .error .badK
    else
      let x := cleanRows xyz
      let keff := kEff xyz kv
      if x.all rowFinite then
        match knnCoreE E.svd (x.map projRV) keff with
        | .error e => .error e
        | .ok core =>
          .ok { points := x, vect := core.1.map liftV3, alpha := some core.2,
                length := none, k := some keff, meta := meta }
      else
        match E.nfKern x keff with
        | .error e => .error e
        | .ok va =>
          .ok { points := x, vect := va.1, alpha := some va.2,
                length := none, k := some keff, meta := meta }

/-- Line 106-107: resample a tree neuron when `resample` is truthy. -/
def resampledTree (E : ExtDeps) (t : TreeData) (resample : Option ℚ) : TreeData :=
  match resample with
  | some r => E.resampleTree t r
  | none => t

/-- Lines 111-113: the terminal tree branch — points, vectors and lengths
come from `graph.neuron2tangents`, `alpha` and `k` are `None`. -/
def treeDotprops (E : ExtDeps) (t : TreeData) : Dotprops :=
  { points := (E.n2t t).1, vect := (E.n2t t).2.1, alpha := none,
    length := some (E.n2t t).2.2, k := none, meta := some t.meta }

/-- Shape validation of a raw array (line 125): the second dimension must
be 3. -/
def arrShapeOk (rows : List (List RF)) : Bool :=
  rows.all (fun r => r.length == 3)

/-- Row extraction for a well shaped raw array. -/
def toRow3 (r : List RF) : RV3 :=
  fun a => r.getD (a : ℕ) .nan

/-- `make_dotprops` (lines 100-164) for a single input.  The NeuronList
branch (lines 92-98, a per element recursion) and the `resample` type
validation (line 89, encoded here by the type of `resample`) are not
needed by any claim and are omitted. -/
def make_dotprops (E : ExtDeps) (x : DPInput) (k : Option ℤ)
    (resample : Option ℚ) : Except DPErr Dotprops :=
  match x with
  | .dataframe cols xyz =>
    if !(["x", "y", "z"].all (fun c => cols.contains c)) then
      .error .badColumns
    else knnPath E xyz none k
  | .tree t0 =>
    let t := resampledTree E t0 resample
    if kInvalid k then .ok (treeDotprops E t)
    else knnPath E t.nodes (some t.meta) k
  | .mesh m =>
    let v := match resample with
      | some r => E.removeClose m.vertices r
      | none => m.vertices
    knnPath E v (some m.meta) k
  | .arr rows =>
    if !arrShapeOk rows then .error .badShape
    else knnPath E (rows.map toRow3) none k

/-- Extract the Dotprops from a successful result. -/
def dpOf : Except DPErr Dotprops → Dotprops
  | .ok dp => dp
  | .error _ => default

/-- The result is a success. -/
def isOkE {ε α : Type} : Except ε α → Bool
  | .ok _ => true
  | .error _ => false

/-- The result is one of the validation errors of `make_dotprops`
(missing columns, bad shape, invalid `k`). -/
def isValidationErr : Except DPErr Dotprops → Bool
  | .error .badColumns => true
  | .error .badShape => true
  | .error .badK => true
  | _ => false

/-- The input is the tree structured variant. -/
def isTreeInput : DPInput → Bool
  | .tree _ => true
  | _ => false

/-- A pint quantity: a magnitude, a scale factor of its unit relative to a
base unit, and an integer dimension exponent (`dim = 0` means
dimensionless).  All quantities of one dimension are mutually
convertible. -/
structure PQuantity where
  mag : ℚ
  scale : ℚ
  dim : ℤ
  deriving DecidableEq, Inhabited

/-- The pint `dimensionless` predicate. -/
def PQuantity.dimensionless (q : PQuantity) : Bool :=
  q.dim == 0

/-- A neuron as seen by `to_neuron_space`: something with a `units`
attribute. -/
structure NeuronU where
  units : PQuantity
  deriving DecidableEq, Inhabited

/-- The `units` argument of `to_neuron_space`: a plain number, a unit
string (modelled by the quantity it parses to, line 219), an existing
`pint.Quantity`, or a `pint.Unit`. -/
inductive UInput where
  | num (q : ℚ)
  | str (q : PQuantity)
  | qty (q : PQuantity)
  | unitv (q : PQuantity)
  deriving DecidableEq

/-- Possible return values of `to_neuron_space`: a plain number passed
through or computed, or a quantity/unit returned unchanged by the
`on_error="ignore"` escape hatch. -/
inductive TNSOut where
  | num (q : ℚ)
  | qty (q : PQuantity)
  | unitv (q : PQuantity)
  deriving DecidableEq

/-- Errors of `to_neuron_space`: an invalid `on_error` option (line 213),
the dimensionless neuron error (line 226), and a pint dimensionality
mismatch raised by `units.to(...)` (line 236). -/
inductive TNSErr where
  | badOnError
  | dimlessNeuron
  | dimMismatch
  deriving DecidableEq

/-- Lines 213-245 of the source.  `roundSmart` is `utils.round_smart`,
which is defined outside this file and passed in as a parameter.  Strings
are parsed into quantities (line 219); plain numbers are returned
unchanged (line 222); a dimensionless neuron raises or returns the parsed
input unchanged depending on `on_error` (lines 224-229); a dimensionless
quantity yields its magnitude (line 233); otherwise the quantity is
converted to the neuron unit and divided by the neuron unit magnitude,
with smart rounding applied (lines 236-245). -/
def to_neuron_space (roundSmart : ℚ → ℚ) (units0 : UInput)
    (neuron : NeuronU) (on_error : String) : Except TNSErr TNSOut :=
  if on_error ≠ "ignore" ∧ on_error ≠ "raise" then .error .badOnError
  else
    let handle : PQuantity → TNSOut → Except TNSErr TNSOut := fun u out =>
      if neuron.units.dimensionless then
        if on_error = "raise" then .error .dimlessNeuron
        else .ok out
      else if u.dimensionless then .ok (.num u.mag)
      else if u.dim ≠ neuron.units.dim then .error .dimMismatch
      else
        .ok (.num (roundSmart ((u.mag * u.scale / neuron.units.scale) /
          neuron.units.mag)))
    match units0 with
    | .num q => .ok (.num q)
    | .str u => handle u (.qty u)
    | .qty u => handle u (.qty u)
    | .unitv u => handle u (.unitv u)

/-- A Python value as passed to the batch applier: an opaque scalar or a
sequence.  `utils.is_iterable` distinguishes the two. -/
inductive PyVal where
  | atom (n : ℤ)
  | list (vs : List PyVal)

/-- Model of `utils.is_iterable`. -/
def isIterable : PyVal → Bool
  | .list _ => true
  | .atom _ => false

/-- Model of `len(...)` (only consulted on iterables). -/
def lenOf : PyVal → ℕ
  | .list vs => vs.length
  | .atom _ => 0

/-- Model of `a[i]` (only consulted on iterables). -/
def idxVal : PyVal → ℕ → PyVal
  | .list vs, i => vs.getD i (.atom 0)
  | a, _ => a

/-- Lines 301-305 and 307-311 of the source, for one argument: if the
argument is not iterable or its length differs from the item count, it is
passed unchanged; otherwise item `i` receives element `i`. -/
def broadcastArg (N : ℕ) (a : PyVal) (i : ℕ) : PyVal :=
  if !isIterable a || lenOf a != N then a else idxVal a i

/-- The positional arguments item `i` receives (`parsed_args[i]`). -/
def parsedArgs (N : ℕ) (args : List PyVal) (i : ℕ) : List PyVal :=
  args.map (fun a => broadcastArg N a i)

/-- The keyword arguments item `i` receives (`parsed_kwargs[i]`). -/
def parsedKwargs (N : ℕ) (kwargs : List (String × PyVal)) (i : ℕ) :
    List (String × PyVal) :=
  kwargs.map (fun kv => (kv.1, broadcastArg N kv.2 i))

/-- The argument broadcasting rule as the specification states it: a
sequence whose length equals the item count is distributed element-wise,
anything else is passed unchanged to every item. -/
def broadcastSpec (N : ℕ) (a : PyVal) (i : ℕ) : PyVal :=
  match a with
  | .list vs => if vs.length = N then vs.getD i (.atom 0) else .list vs
  | .atom n => .atom n

/-- The global logger threshold (`logger.getEffectiveLevel()` /
`logger.setLevel`), modelled as a natural number in the Python logging
scale. -/
abbrev LogLevel := ℕ

/-- `logging.WARNING`, the threshold set on line 315. -/
def WARNING : LogLevel := 30

/-- One item call: reads the global logger level, may change it, and
either returns a value or raises. -/
abbrev ItemFn (ρ : Type) := LogLevel → Except String ρ × LogLevel

/-- Run the item calls in order, threading the global logger level and
propagating the first exception (the level at raise time survives, since
it is global state). -/
def runItems {ρ : Type} : List (ItemFn ρ) → LogLevel →
    Except String (List ρ) × LogLevel
  | [], lv => (.ok [], lv)
  | f :: fs, lv =>
    match f lv with
    | (.error e, lv2) => (.error e, lv2)
    | (.ok r, lv2) =>
      match runItems fs lv2 with
      | (.error e, lv3) => (.error e, lv3)
      | (.ok rs, lv3) => (.ok (r :: rs), lv3)

/-- Errors escaping `NeuronProcessor.__call__`: the missing pathos import
(line 320) or an exception raised by an item function. -/
inductive CallErr where
  | importError
  | itemRaised (msg : String)
  deriving DecidableEq

/-- `NeuronProcessor.__call__` (lines 287-350): broadcast the call
arguments over the items (lines 295-311), save the logger level and set it
to WARNING (lines 314-315), check the pool dependency in parallel mode
(lines 319-322), run every item (parallel execution is modelled by the
same order preserving map, lines 328-347), and reset the logger level on
the successful path (line 350).  There is no try/finally: an exception
leaves the level as it was when the exception was raised.  The result
assembly of lines 352-360 does not touch the logger and is outside every
claim, so the raw result list is returned. -/
def NeuronProcessor.call {ρ : Type} (parallel poolAvail : Bool)
    (funcs : List (List PyVal → List (String × PyVal) → ItemFn ρ))
    (args : List PyVal) (kwargs : List (String × PyVal)) (lv0 : LogLevel) :
    Except CallErr (List ρ) × LogLevel :=
  let N := funcs.length
  let jobs := funcs.enum.map (fun p =>
    p.2 (parsedArgs N args p.1) (parsedKwargs N kwargs p.1))
  let level := lv0
  let lv := WARNING
  if parallel && !poolAvail then (.error .importError, lv)
  else
    match runItems jobs lv with
    | (.error e, lv2) => (.error (.itemRaised e), lv2)
    | (.ok res, _) => (.ok res, level)

/-- Squared Euclidean norm of a vector (unit norm in exact arithmetic is
squared norm 1). -/
def sqnorm3 (v : V3) : ℚ :=
  v 0 ^ 2 + v 1 ^ 2 + v 2 ^ 2

/-- A trivial SVD function: it is a valid SVD exactly of the zero matrix. -/
def svdNull : Mat3 → Mat3 × V3 × Mat3 :=
  fun _ => (1, fun _ => 0, 1)

/-- A non finite kernel that models the library raising. -/
def nfNull : List RV3 → ℕ → Except DPErr (List RV3 × List NpDivResult) :=
  fun _ _ => .error .libRaise

/-- A trivial tangent extraction. -/
def n2tNull : TreeData → List RV3 × List RV3 × List ℚ :=
  fun _ => ([], [], [])

/-- A concrete external collaborator record used in witnesses. -/
def E0 : ExtDeps :=
  { svd := svdNull, nfKern := nfNull, n2t := n2tNull,
    resampleTree := fun t _ => t, removeClose := fun v _ => v }

/-- Concrete metadata used in witnesses. -/
def meta0 : DPMeta := { units := 1, name := "n", id := 1 }

/-- A concrete tree neuron used in witnesses. -/
def tree0 : TreeData := { nodes := [], edges := [], meta := meta0 }

/-- A concrete mesh neuron used in witnesses. -/
def mesh0 : MeshData := { vertices := [], meta := meta0 }

/-- The point (1, 2, 3). -/
def q123 : V3 := ![1, 2, 3]

/-- The row (1, 2, 3) in floating point form. -/
def row123 : List RF := [.fin 1, .fin 2, .fin 3]

/-- Two distinct finite rows (so that the effective `k` can be 2 and the
query output is not squeezed). -/
def rows2 : List (List RF) :=
  [[.fin 0, .fin 0, .fin 0], [.fin 2, .fin 0, .fin 0]]

/-- Two rows, the first containing a NaN. -/
def rowsNaN : List (List RF) := [[.nan, .fin 0, .fin 0], [.fin 0, .fin 0, .fin 0]]

/-- Two rows, the first containing +inf (and no NaN). -/
def rowsInf : List (List RF) := [[.inf, .fin 0, .fin 0], [.fin 0, .fin 0, .fin 0]]

/-- Two identical rows: every 2 nearest neighbour cloud is degenerate. -/
def dupRows : List (List RF) := [row123, row123]

/-- For invalid `k`, the k nearest neighbour path raises the line 129
validation error. -/
theorem knnPath_kInvalid (k : Option ℤ) (h : kInvalid k = true)
    (E : ExtDeps) (xyz : List RV3) (m : Option DPMeta) :
    knnPath E xyz m k = .error .badK := by
  match k with
  | none => rfl
  | some v =>
    simp only [kInvalid, decide_eq_true_eq] at h
    simp [knnPath, h]

/-- C6: for a tree structured input with `k=None` or `k ≤ 0`,
`make_dotprops` takes the terminal tangent branch: the result is built
from `graph.neuron2tangents` only, carries `alpha = None` and `k = None`,
and does not depend on the SVD or on the k nearest neighbour kernel at
all (replacing both leaves the result unchanged). -/
theorem c6_tree_terminal (E : ExtDeps) (t : TreeData) (k : Option ℤ)
    (r : Option ℚ) (h : kInvalid k = true) :
    make_dotprops E (.tree t) k r = .ok (treeDotprops E (resampledTree E t r))
    ∧ (treeDotprops E (resampledTree E t r)).alpha = none
    ∧ (treeDotprops E (resampledTree E t r)).k = none
    ∧ make_dotprops { E with svd := svdNull, nfKern := nfNull } (.tree t) k r
        = make_dotprops E (.tree t) k r := by
  refine ⟨?_, rfl, rfl, ?_⟩ <;>
    simp [make_dotprops, h, treeDotprops, resampledTree]

/-- Witness for C6 at a concrete tree and `k = None`. -/
theorem c6_tree_terminal_witness :
    kInvalid none = true
    ∧ (make_dotprops E0 (.tree tree0) none none
        = .ok (treeDotprops E0 (resampledTree E0 tree0 none))
      ∧ (treeDotprops E0 (resampledTree E0 tree0 none)).alpha = none
      ∧ (treeDotprops E0 (resampledTree E0 tree0 none)).k = none
      ∧ make_dotprops { E0 with svd := svdNull, nfKern := nfNull }
          (.tree tree0) none none
          = make_dotprops E0 (.tree tree0) none none) :=
  ⟨rfl, c6_tree_terminal E0 tree0 none none rfl⟩

/-- C7: for every non tree input (DataFrame, mesh or raw array) with
`k=None` or `k ≤ 0`, `make_dotprops` fails with one of its validation
errors and never returns a Dotprops. -/
theorem c7_nontree_invalid_k (E : ExtDeps) (x : DPInput) (k : Option ℤ)
    (r : Option ℚ) (h1 : isTreeInput x = false) (h2 : kInvalid k = true) :
    isValidationErr (make_dotprops E x k r) = true := by
  cases x with
  | tree t => simp [isTreeInput] at h1
  | dataframe cols xyz =>
    simp only [make_dotprops, knnPath_kInvalid k h2]
    split <;> rfl
  | mesh m =>
    simp only [make_dotprops, knnPath_kInvalid k h2]
    rfl
  | arr rows =>
    simp only [make_dotprops, knnPath_kInvalid k h2]
    split <;> rfl

/-- Witness for C7 at a concrete mesh with `k = 0`. -/
theorem c7_nontree_invalid_k_witness :
    isTreeInput (.mesh mesh0) = false ∧ kInvalid (some 0) = true
    ∧ isValidationErr (make_dotprops E0 (.mesh mesh0) (some 0) none) = true :=
  ⟨rfl, by decide, c7_nontree_invalid_k E0 (.mesh mesh0) (some 0) none rfl (by decide)⟩

/-- C3 counterexample: a row containing +inf (a non finite value that is
not NaN) is NOT dropped by the cleaning step of line 133 — both rows of
`rowsInf` survive `cleanRows` and are handed to the nearest neighbour
stage, contradicting the claim that every non finite row is dropped. -/
theorem c3_inf_row_retained :
    cleanRows (rowsInf.map toRow3) = rowsInf.map toRow3
    ∧ rowFinite (toRow3 [RF.inf, .fin 0, .fin 0]) = false
    ∧ (cleanRows (rowsInf.map toRow3)).length = 2 := by
  exact ⟨rfl, rfl, rfl⟩

/-- C3 amended: only rows containing NaN are dropped before the nearest
neighbour computation; the points of any Dotprops returned on the raw
array path are exactly the NaN cleaned rows — free of NaN but not
necessarily finite. -/
theorem c3_nan_rows_dropped (E : ExtDeps) (rows : List (List RF)) (kv : ℤ)
    (r : Option ℚ) (dp : Dotprops)
    (h : make_dotprops E (.arr rows) (some kv) r = .ok dp) :
    dp.points = cleanRows (rows.map toRow3)
    ∧ dp.points.all rowNoNaN = true := by
  have hfilter : ∀ l : List RV3, (cleanRows l).all rowNoNaN = true := by
    intro l
    simp only [cleanRows, List.all_eq_true]
    intro a ha
    exact List.of_mem_filter ha
  simp only [make_dotprops] at h
  split at h
  · exact absurd h (by simp)
  · simp only [knnPath] at h
    split at h
    · exact absurd h (by simp)
    · split at h
      · split at h
        · exact absurd h (by simp)
        · injection h with h
          subst h
          exact ⟨rfl, hfilter _⟩
      · split at h
        · exact absurd h (by simp)
        · injection h with h
          subst h
          exact ⟨rfl, hfilter _⟩

/-- Witness for the amended C3 at a concrete run that returns a
Dotprops (two distinct points, `k = 2`, no query squeeze). -/
theorem c3_nan_rows_dropped_witness :
    (dpOf (make_dotprops E0 (.arr rows2) (some 2) none)).points
      = cleanRows (rows2.map toRow3)
    ∧ (dpOf (make_dotprops E0 (.arr rows2) (some 2) none)).points.all
        rowNoNaN = true :=
  c3_nan_rows_dropped E0 rows2 2 none
    (dpOf (make_dotprops E0 (.arr rows2) (some 2) none)) rfl

/-- C10: on the raw array path with a requested `k > N` (N the cleaned
point count), whenever `make_dotprops` returns a Dotprops at all, the `k`
recorded on it is the effective value `min(k, N) = N`, not the requested
`k`.  (For `N = 1` the program returns nothing: the `k == 1` query
squeeze makes line 154 raise before the Dotprops is built, so the claim
about the returned metadata is exercised by the `N ≥ 2` runs, as in the
witness.) -/
theorem c10_recorded_k_is_min (E : ExtDeps) (rows : List (List RF))
    (kv : ℤ) (r : Option ℚ) (dp : Dotprops)
    (h2 : (n_points (rows.map toRow3) : ℤ) < kv)
    (h : make_dotprops E (.arr rows) (some kv) r = .ok dp) :
    dp.k = some (n_points (rows.map toRow3)) := by
  have hmin : kEff (rows.map toRow3) kv = n_points (rows.map toRow3) := by
    unfold kEff
    omega
  simp only [make_dotprops] at h
  split at h
  · exact absurd h (by simp)
  · simp only [knnPath] at h
    split at h
    · exact absurd h (by simp)
    · split at h
      · split at h
        · exact absurd h (by simp)
        · injection h with h
          subst h
          show some (kEff (rows.map toRow3) kv) = _
          rw [hmin]
      · split at h
        · exact absurd h (by simp)
        · injection h with h
          subst h
          show some (kEff (rows.map toRow3) kv) = _
          rw [hmin]

/-- Witness for C10: two cleaned points, requested `k = 5`, recorded
`k = 2`. -/
theorem c10_recorded_k_is_min_witness :
    ((n_points (rows2.map toRow3) : ℤ) < 5)
    ∧ (dpOf (make_dotprops E0 (.arr rows2) (some 5) none)).k
        = some (n_points (rows2.map toRow3)) :=
  ⟨by decide,
    c10_recorded_k_is_min E0 rows2 5 none
      (dpOf (make_dotprops E0 (.arr rows2) (some 5) none)) (by decide) rfl⟩

/-- Inserting one pair grows the sorted list by one element. -/
theorem insertPair_length (a : ℚ × ℕ) (l : List (ℚ × ℕ)) :
    (insertPair a l).length = l.length + 1 := by
  induction l with
  | nil => rfl
  | cons b t ih =>
    simp only [insertPair]
    split
    · simp
    · simp [ih]

/-- The insertion sort preserves the number of candidates. -/
theorem sortPairs_length (l : List (ℚ × ℕ)) :
    (sortPairs l).length = l.length := by
  induction l with
  | nil => rfl
  | cons a t ih =>
    simp only [sortPairs, List.foldr_cons] at *
    rw [insertPair_length, ih, List.length_cons]

/-- C5: with `N ≥ 1` cleaned points and a requested `k > N`, the
effective neighbour count is exactly `N` (it is computed from the point
count after row cleaning), and every neighbour list produced by the
query has exactly `N` entries — the query never requests more neighbours
than there are points. -/
theorem c5_effective_k (xyz : List RV3) (kv : ℤ)
    (h1 : 1 ≤ n_points xyz) (h2 : (n_points xyz : ℤ) < kv) :
    kEff xyz kv = n_points xyz
    ∧ ∀ ns ∈ knnPts ((cleanRows xyz).map projRV) (kEff xyz kv),
        ns.length = n_points xyz := by
  have hk : kEff xyz kv = n_points xyz := by
    unfold kEff
    omega
  refine ⟨hk, ?_⟩
  intro ns hns
  simp only [knnPts, List.mem_map] at hns
  obtain ⟨idxs, hidxs, hns⟩ := hns
  simp only [knnQuery, List.mem_map] at hidxs
  obtain ⟨p, hp, hidx⟩ := hidxs
  subst hns hidx
  simp only [List.length_map, List.length_take, sortPairs_length,
    List.enum_length]
  rw [hk]
  simp only [n_points, List.length_map]
  omega

/-- Witness for C5: the NaN row is dropped, so `N = 1` and a request of
`k = 5` is clamped to one neighbour per point. -/
theorem c5_effective_k_witness :
    (1 ≤ n_points (rowsNaN.map toRow3)
      ∧ (n_points (rowsNaN.map toRow3) : ℤ) < 5)
    ∧ (kEff (rowsNaN.map toRow3) 5 = n_points (rowsNaN.map toRow3)
      ∧ ∀ ns ∈ knnPts ((cleanRows (rowsNaN.map toRow3)).map projRV)
          (kEff (rowsNaN.map toRow3) 5),
          ns.length = n_points (rowsNaN.map toRow3)) :=
  ⟨⟨by decide, by decide⟩,
    c5_effective_k (rowsNaN.map toRow3) 5 (by decide) (by decide)⟩

/-- C8: for a unit carrying quantity against a neuron with dimensionless
units, `to_neuron_space` raises the line 226 domain error under
`on_error="raise"` and returns the quantity unchanged under
`on_error="ignore"`; the same holds for `pint.Unit` inputs. -/
theorem c8_dimensionless_neuron (rs : ℚ → ℚ) (u : PQuantity)
    (neuron : NeuronU) (h : neuron.units.dimensionless = true) :
    to_neuron_space rs (.qty u) neuron "raise" = .error .dimlessNeuron
    ∧ to_neuron_space rs (.qty u) neuron "ignore" = .ok (.qty u)
    ∧ to_neuron_space rs (.unitv u) neuron "raise" = .error .dimlessNeuron
    ∧ to_neuron_space rs (.unitv u) neuron "ignore" = .ok (.unitv u) := by
  refine ⟨?_, ?_, ?_, ?_⟩ <;> simp [to_neuron_space, h]

/-- Witness for C8 at a concrete quantity and dimensionless neuron. -/
theorem c8_dimensionless_neuron_witness :
    (NeuronU.mk ⟨1, 1, 0⟩).units.dimensionless = true
    ∧ (to_neuron_space id (.qty ⟨2, 3, 1⟩) (NeuronU.mk ⟨1, 1, 0⟩) "raise"
        = .error .dimlessNeuron
      ∧ to_neuron_space id (.qty ⟨2, 3, 1⟩) (NeuronU.mk ⟨1, 1, 0⟩) "ignore"
        = .ok (.qty ⟨2, 3, 1⟩)
      ∧ to_neuron_space id (.unitv ⟨2, 3, 1⟩) (NeuronU.mk ⟨1, 1, 0⟩) "raise"
        = .error .dimlessNeuron
      ∧ to_neuron_space id (.unitv ⟨2, 3, 1⟩) (NeuronU.mk ⟨1, 1, 0⟩) "ignore"
        = .ok (.unitv ⟨2, 3, 1⟩)) :=
  ⟨rfl, c8_dimensionless_neuron id ⟨2, 3, 1⟩ (NeuronU.mk ⟨1, 1, 0⟩) rfl⟩

/-- C9: for every call time argument, the value item `i` receives is
given by the broadcasting rule — a sequence whose length equals the item
count is distributed element-wise (`argument[i]` to item `i`), anything
else is passed to every item unchanged.  This holds for positional and
keyword arguments alike. -/
theorem c9_argument_broadcasting (N : ℕ) (args : List PyVal)
    (kwargs : List (String × PyVal)) (i j m : ℕ)
    (_hi : i < N) (hj : j < args.length) (hm : m < kwargs.length) :
    (parsedArgs N args i).getD j (.atom 0)
      = broadcastSpec N (args.getD j (.atom 0)) i
    ∧ (parsedKwargs N kwargs i).getD m ("", .atom 0)
      = ((kwargs.getD m ("", .atom 0)).1,
          broadcastSpec N (kwargs.getD m ("", .atom 0)).2 i) := by
  have key : ∀ a : PyVal, broadcastArg N a i = broadcastSpec N a i := by
    intro a
    cases a with
    | atom n => simp [broadcastArg, broadcastSpec, isIterable]
    | list vs =>
      simp only [broadcastArg, broadcastSpec, isIterable, lenOf, idxVal,
        Bool.not_true, Bool.false_or]
      by_cases hlen : vs.length = N
      · simp [hlen]
      · simp [hlen, bne_iff_ne, Ne, hlen]
  constructor
  · rw [List.getD_eq_getElem?_getD, List.getD_eq_getElem?_getD,
      parsedArgs, List.getElem?_map]
    rcases List.getElem?_eq_some_iff.mpr ⟨hj, rfl⟩ with h
    rw [List.getElem?_eq_getElem hj]
    simp [key]
  · rw [List.getD_eq_getElem?_getD, List.getD_eq_getElem?_getD,
      parsedKwargs, List.getElem?_map]
    rw [List.getElem?_eq_getElem hm]
    simp [key]

/-- Witness for C9: three items, one scalar argument, one length 3 list
argument, one keyword list argument; item 1 receives element 1 of the
lists and the scalar unchanged. -/
theorem c9_argument_broadcasting_witness :
    ((1 : ℕ) < 3 ∧ (1 : ℕ) < 2 ∧ (0 : ℕ) < 1)
    ∧ ((parsedArgs 3 [.atom 7, .list [.atom 1, .atom 2, .atom 3]] 1).getD 1
          (.atom 0)
        = broadcastSpec 3
            ([PyVal.atom 7, .list [.atom 1, .atom 2, .atom 3]].getD 1 (.atom 0)) 1
      ∧ (parsedKwargs 3 [("w", .list [.atom 4, .atom 5, .atom 6])] 1).getD 0
          ("", .atom 0)
        = (([("w", PyVal.list [.atom 4, .atom 5, .atom 6])].getD 0
            ("", .atom 0)).1,
          broadcastSpec 3
            (([("w", PyVal.list [.atom 4, .atom 5, .atom 6])].getD 0
              ("", .atom 0)).2) 1)) :=
  ⟨⟨by decide, by decide, by decide⟩,
    c9_argument_broadcasting 3 [.atom 7, .list [.atom 1, .atom 2, .atom 3]]
      [("w", .list [.atom 4, .atom 5, .atom 6])] 1 1 0
      (by decide) (by decide) (by decide)⟩

/-- An item function that raises without touching the logger. -/
def boomFn : List PyVal → List (String × PyVal) → ItemFn Unit :=
  fun _ _ lv => (.error "boom", lv)

/-- An item function that succeeds without touching the logger. -/
def okFn : List PyVal → List (String × PyVal) → ItemFn Unit :=
  fun _ _ lv => (.ok (), lv)

/-- C2 (code bug): there is no try/finally around the batch loop, so when
an item function raises, `logger.setLevel(level)` on line 350 is skipped
and the global logger threshold stays at the lowered WARNING value instead
of being restored to its prior value 20. -/
theorem c2_level_not_restored_on_raise :
    (NeuronProcessor.call false true [boomFn] [] [] 20).2 = WARNING
    ∧ (NeuronProcessor.call false true [boomFn] [] [] 20).1
        = .error (.itemRaised "boom")
    ∧ WARNING ≠ 20 := by
  exact ⟨rfl, rfl, by decide⟩

/-- Supporting fact: on the successful path (no item raises, the pool
dependency is present when needed) the logger level is restored to its
exact prior value, in sequential and in parallel mode alike. -/
theorem call_restores_level_on_success {ρ : Type} (parallel poolAvail : Bool)
    (funcs : List (List PyVal → List (String × PyVal) → ItemFn ρ))
    (args : List PyVal) (kwargs : List (String × PyVal)) (lv0 : LogLevel)
    (h : isOkE (NeuronProcessor.call parallel poolAvail funcs args kwargs
      lv0).1 = true) :
    (NeuronProcessor.call parallel poolAvail funcs args kwargs lv0).2
      = lv0 := by
  simp only [NeuronProcessor.call] at h ⊢
  split at h
  · next hp =>
    rw [if_pos hp]
    simp [isOkE] at h
  · next hp =>
    rw [if_neg hp]
    split at h
    · next e lv2 heq =>
      simp [isOkE] at h
    · next res lv2 heq =>
      rfl

/-- Witness for the supporting restore fact at a concrete successful
batch. -/
theorem call_restores_level_on_success_witness :
    isOkE (NeuronProcessor.call false true [okFn] [] [] 20).1 = true
    ∧ (NeuronProcessor.call false true [okFn] [] [] 20).2 = 20 :=
  ⟨rfl, call_restores_level_on_success false true [okFn] [] [] 20 rfl⟩

/-- The projected first row of `dupRows` is the point (1, 2, 3). -/
theorem proj_row123 : projRV (toRow3 row123) = q123 := by
  funext a
  fin_cases a <;> rfl

/-- Cleaning the duplicated rows keeps both and projects them to
`q123`. -/
theorem clean_dup : (cleanRows (dupRows.map toRow3)).map projRV
    = [q123, q123] := by
  rw [show cleanRows (dupRows.map toRow3) = [toRow3 row123, toRow3 row123]
    from rfl]
  simp [proj_row123]

/-- The inertia matrix of a cloud of two identical points is zero. -/
theorem inertia_pair_zero (p : V3) : inertiaOf [p, p] = 0 := by
  ext a b
  simp [inertiaOf, centerOf]

/-- `svdNull` is a genuine SVD of the zero matrix: the singular values of
the zero matrix are all zero. -/
theorem isSVD_zero_cert : IsSVD 0 1 (fun _ => 0) 1 := by
  refine ⟨by simp, by simp, le_refl 0, le_refl 0, le_refl 0, ?_⟩
  have hd : Matrix.diagonal (fun _ => (0 : ℚ)) = (0 : Mat3) :=
    Matrix.diagonal_zero
  rw [hd]
  simp

/-- Both 2 nearest neighbour clouds of the duplicated point are the two
identical points. -/
theorem knnPts_dup : knnPts [q123, q123] 2 = [[q123, q123], [q123, q123]] := by
  simp [knnPts, knnQuery, sortPairs, insertPair, distLe, List.enum,
    List.enumFrom, sqdist]

/-- On the duplicated input both alpha entries are NaN: the singular
values of the zero inertia matrix are all zero and the division is
0/0. -/
theorem knnCore_dup_alpha :
    (knnCore svdNull [q123, q123] 2).2 = [.nan, .nan] := by
  simp [knnCore, knnInertias, knnPts_dup, inertia_pair_zero, svdNull, npDiv]

/-- C1 (code bug): at the degenerate input of two identical points with
`k = 2`, `make_dotprops` does not raise, but the confidence it computes
for both points is NaN — the unguarded division `(s0 - s1) / sum(s)`
evaluates 0/0 — and not the value 0 required by the specification.
`isSVD_zero_cert` certifies that the zero singular values used are the
genuine SVD output for the zero inertia matrix of such a neighbourhood. -/
theorem c1_degenerate_alpha_is_nan :
    (dpOf (make_dotprops E0 (.arr dupRows) (some 2) none)).alpha
      = some [.nan, .nan]
    ∧ isOkE (make_dotprops E0 (.arr dupRows) (some 2) none) = true
    ∧ IsSVD 0 1 (fun _ => 0) 1
    ∧ NpDivResult.nan ≠ NpDivResult.val 0 := by
  refine ⟨?_, rfl, isSVD_zero_cert, by decide⟩
  have h1 : make_dotprops E0 (.arr dupRows) (some 2) none
      = .ok { points := cleanRows (dupRows.map toRow3),
              vect := (knnCore svdNull
                ((cleanRows (dupRows.map toRow3)).map projRV) 2).1.map liftV3,
              alpha := some (knnCore svdNull
                ((cleanRows (dupRows.map toRow3)).map projRV) 2).2,
              length := none, k := some 2, meta := none } := rfl
  rw [h1]
  simp only [dpOf]
  rw [clean_dup, knnCore_dup_alpha]

/-- On the duplicated input both tangent vectors are the first row of the
orthogonal factor returned for the zero inertia matrix. -/
theorem knnCore_dup_vect :
    (knnCore svdNull [q123, q123] 2).1
      = [fun a => (1 : Mat3) 0 a, fun a => (1 : Mat3) 0 a] := by
  simp [knnCore, knnInertias, knnPts_dup, svdNull]

/-- C4 (code bug): the valid coordinate matrix of two identical points
with `k = 2` satisfies `N ≥ k ≥ 1` and its query output is not squeezed,
yet both alpha values the program computes are NaN (the unguarded 0/0 of
line 162) and hence not inside `[0, 1]`; the tangent vector rows do have
unit (squared) norm, as `knnCore_alpha_vect_sound` shows in general.  In
addition, for any request with effective `k = 1` the claim fails
differently: the `k == 1` query squeeze makes line 154 raise a
ValueError, so no `vect` or `alpha` is produced at all. -/
theorem c4_alpha_not_in_unit_at_degenerate :
    (knnCore svdNull [q123, q123] 2).2.all NpDivResult.inUnit = false
    ∧ sqnorm3 ((knnCore svdNull [q123, q123] 2).1.getD 0 (fun _ => 0)) = 1
    ∧ sqnorm3 ((knnCore svdNull [q123, q123] 2).1.getD 1 (fun _ => 0)) = 1
    ∧ IsSVD (inertiaOf [q123, q123]) 1 (fun _ => 0) 1
    ∧ (dpOf (make_dotprops E0 (.arr dupRows) (some 2) none)).alpha
        = some [.nan, .nan]
    ∧ knnCoreE svdNull [q123] 1 = .error .reshapeRaise := by
  refine ⟨?_, ?_, ?_, ?_, ?_, rfl⟩
  · rw [knnCore_dup_alpha]
    rfl
  · rw [knnCore_dup_vect]
    simp [sqnorm3, Matrix.one_apply]
  · rw [knnCore_dup_vect]
    simp [sqnorm3, Matrix.one_apply]
  · rw [inertia_pair_zero]
    exact isSVD_zero_cert
  · have h1 : make_dotprops E0 (.arr dupRows) (some 2) none
        = .ok { points := cleanRows (dupRows.map toRow3),
                vect := (knnCore svdNull
                  ((cleanRows (dupRows.map toRow3)).map projRV) 2).1.map liftV3,
                alpha := some (knnCore svdNull
                  ((cleanRows (dupRows.map toRow3)).map projRV) 2).2,
                length := none, k := some 2, meta := none } := rfl
    rw [h1]
    simp only [dpOf]
    rw [clean_dup, knnCore_dup_alpha]

/-- The first row of an orthogonal matrix has unit squared norm. -/
theorem row0_sqnorm_of_orth (vh : Mat3) (h : vh * vh.transpose = 1) :
    sqnorm3 (fun a => vh 0 a) = 1 := by
  have h00 := congrFun (congrFun h 0) 0
  simp [Matrix.mul_apply, Matrix.transpose_apply, Fin.sum_univ_three,
    Matrix.one_apply] at h00
  simp only [sqnorm3, pow_two]
  linarith

/-- For ordered nonnegative singular values with nonzero sum, the
confidence `(s0 - s1) / (s0 + s1 + s2)` is a finite value in `[0, 1]`. -/
theorem alpha_in_unit_of_sum_ne (s : V3) (h0 : s 1 ≤ s 0) (h1 : s 2 ≤ s 1)
    (h2 : 0 ≤ s 2) (hs : s 0 + s 1 + s 2 ≠ 0) :
    (npDiv (s 0 - s 1) (s 0 + s 1 + s 2)).inUnit = true := by
  have hpos : 0 < s 0 + s 1 + s 2 :=
    lt_of_le_of_ne (by linarith) (Ne.symm hs)
  simp only [npDiv, if_neg hs, NpDivResult.inUnit, decide_eq_true_eq]
  constructor
  · exact div_nonneg (by linarith) (le_of_lt hpos)
  · rw [div_le_one hpos]
    linarith

/-- Soundness of the intended kernel on valid SVD output: every tangent
vector row has unit squared norm, and every alpha entry is either a finite
value in `[0, 1]` or the NaN produced by a degenerate (zero inertia
spectrum) neighbourhood.  This is the strongest form of the `[0, 1]`
bound that the unguarded division of line 162 admits. -/
theorem knnCore_alpha_vect_sound (svd : Mat3 → Mat3 × V3 × Mat3)
    (pts : List V3) (k : ℕ)
    (h : ∀ M ∈ knnInertias pts k,
      IsSVD M (svd M).1 (svd M).2.1 (svd M).2.2) :
    (∀ v ∈ (knnCore svd pts k).1, sqnorm3 v = 1)
    ∧ ∀ a ∈ (knnCore svd pts k).2,
        a.inUnit = true ∨ a = NpDivResult.nan := by
  constructor
  · intro v hv
    simp only [knnCore, List.map_map, List.mem_map, Function.comp] at hv
    obtain ⟨M, hM, hveq⟩ := hv
    obtain ⟨-, horth, -, -, -, -⟩ := h M hM
    subst hveq
    exact row0_sqnorm_of_orth _ horth
  · intro a ha
    simp only [knnCore, List.map_map, List.mem_map, Function.comp] at ha
    obtain ⟨M, hM, haeq⟩ := ha
    obtain ⟨-, -, h0, h1, h2, -⟩ := h M hM
    subst haeq
    by_cases hs : (svd M).2.1 0 + (svd M).2.1 1 + (svd M).2.1 2 = 0
    · right
      have hz0 : (svd M).2.1 0 - (svd M).2.1 1 = 0 := by linarith
      simp [npDiv, hs, hz0]
    · left
      exact alpha_in_unit_of_sum_ne _ h0 h1 h2 hs
